import Mathlib

/-
Verification development for the SC Environment impact assessment scripts
(`sc_environment_impact_check.py` and `send_slack_notification.py`).

The Python sources are shallowly embedded below:
  * pure functions become Lean functions over `List Char` / `String`;
  * the mutable `ImpactReport` becomes explicit state passing (`add_item`
    returns the updated report);
  * external collaborators (the regex engine `re.findall`, `git` diff
    retrieval, the Slack HTTP delivery, environment variables) become
    explicit function / data parameters;
  * Python's `fnmatch.fnmatch` (stdlib) is embedded as an executable glob
    matcher with the semantics of `fnmatch.translate`: `*` matches any
    run of characters (including `/`), `?` any single character, and
    `[...]` a character class; there is no special treatment of `/`.
-/

namespace SC

/-! ## Severity levels (`ImpactLevel` in the source) -/

/-- The five severity levels, in the source's declaration order. -/
inductive ImpactLevel
  | none
  | low
  | medium
  | high
  | critical
deriving DecidableEq, Repr

/-- Position of a level in the source's fixed order list
`[NONE, LOW, MEDIUM, HIGH, CRITICAL]` (used by `ImpactLevel.__lt__`). -/
def ImpactLevel.idx : ImpactLevel → Nat
  | ImpactLevel.none => 0
  | ImpactLevel.low => 1
  | ImpactLevel.medium => 2
  | ImpactLevel.high => 3
  | ImpactLevel.critical => 4

/-- `ImpactLevel.__lt__`: compare positions in the fixed order list. -/
def ImpactLevel.lt (a b : ImpactLevel) : Bool :=
  a.idx < b.idx

/-- `a >= b` as derived by `functools.total_ordering` from `__lt__`:
`not (a < b)`. -/
def ImpactLevel.ge (a b : ImpactLevel) : Bool :=
  !(ImpactLevel.lt a b)

/-- Binary maximum under the fixed rank, as performed by
`ImpactReport.add_item` (`if item.impact_level > self.overall_impact`). -/
def ImpactLevel.max (a b : ImpactLevel) : ImpactLevel :=
  if ImpactLevel.lt a b then b else a

/-! ## Report data model -/

/-- `ImpactItem`: one recorded match of a rule against a file. -/
structure ImpactItem where
  category : String
  impact_level : ImpactLevel
  file_path : String
  description : String
  details : List String
  recommendation : Option String
deriving DecidableEq, Repr

/-- Tally used by `generate_summary`:
`len([i for i in items if i.impact_level == lv])`. -/
def countLevel (items : List ImpactItem) (lv : ImpactLevel) : Nat :=
  (items.filter (fun i => i.impact_level == lv)).length

/-- `ImpactReport`; the `summary` dict is modelled as an association list
in insertion order (empty list = the initial empty dict). -/
structure ImpactReport where
  overall_impact : ImpactLevel
  items : List ImpactItem
  summary : List (String × Nat)
  changed_files : List String
deriving DecidableEq, Repr

/-- `ImpactReport.add_item`: append the item and raise the overall impact
when the item's level is strictly greater. -/
def ImpactReport.add_item (r : ImpactReport) (item : ImpactItem) : ImpactReport :=
  { r with
    items := r.items ++ [item],
    overall_impact :=
      if ImpactLevel.lt r.overall_impact item.impact_level then item.impact_level
      else r.overall_impact }

/-- `ImpactReport.generate_summary`: set the summary dict to the five
tallies, in the source's key order. -/
def ImpactReport.generate_summary (r : ImpactReport) : ImpactReport :=
  { r with
    summary := [
      ("total_items", r.items.length),
      ("critical", countLevel r.items ImpactLevel.critical),
      ("high", countLevel r.items ImpactLevel.high),
      ("medium", countLevel r.items ImpactLevel.medium),
      ("low", countLevel r.items ImpactLevel.low)] }

/-- The report created by `SCEnvironmentImpactChecker.__init__`:
`ImpactReport(overall_impact=ImpactLevel.NONE)` with all defaults. -/
def initialReport : ImpactReport :=
  { overall_impact := ImpactLevel.none, items := [], summary := [], changed_files := [] }

/-! ## `fnmatch.fnmatch` (Python stdlib, as called by `check_path_patterns`)

On a POSIX platform `os.path.normcase` is the identity, so `fnmatch` is
case-sensitive pattern matching with the regex produced by
`fnmatch.translate`: `*` → `.*` (across `/` as well — there is no
path-segment special case), `?` → `.`, `[...]` → a regex character class
(leading `!` negates; an unterminated `[` is a literal). -/

/-- Tokens of a compiled glob pattern. -/
inductive GlobTok
  | star
  | anyChar
  | lit (c : Char)
  | cls (neg : Bool) (stuff : List Char)
deriving DecidableEq, Repr

/-- Scan for the closing `]` of a character class; returns the class body
and the remainder after the `]`, or fails when no `]` occurs. -/
def splitAtClosing : List Char → Option (List Char × List Char)
  | [] => Option.none
  | ']' :: rest => Option.some ([], rest)
  | c :: rest =>
    match splitAtClosing rest with
    | Option.none => Option.none
    | Option.some (body, after) => Option.some (c :: body, after)

/-- Parse the body of a `[...]` class starting right after the `[`:
a leading `!` negates; a `]` in first position (after the optional `!`)
is a literal member, exactly as in `fnmatch.translate`. -/
def parseClassBody (ps : List Char) : Option (Bool × List Char × List Char) :=
  let (neg, ps1) :=
    match ps with
    | '!' :: t => (true, t)
    | _ => (false, ps)
  match ps1 with
  | ']' :: t =>
    match splitAtClosing t with
    | Option.some (body, rest) => Option.some (neg, ']' :: body, rest)
    | Option.none => Option.none
  | _ =>
    match splitAtClosing ps1 with
    | Option.some (body, rest) => Option.some (neg, body, rest)
    | Option.none => Option.none

/-- Membership in a character-class body, with regex range semantics
(`a-z`; a `-` at either end is a literal). -/
def charInSet : List Char → Char → Bool
  | a :: '-' :: b :: rest, c =>
    (a ≤ c && c ≤ b) || charInSet rest c
  | a :: rest, c => a == c || charInSet rest c
  | [], _ => false

/-- Compile a glob pattern to tokens.  The `fuel` argument only bounds the
recursion (character classes make the recursion non-structural); any
`fuel ≥ length of the pattern + 1` is sufficient, and `fnmatch` below
always supplies that much. -/
def compilePat : Nat → List Char → List GlobTok
  | 0, _ => []
  | _ + 1, [] => []
  | fuel + 1, '*' :: ps => GlobTok.star :: compilePat fuel ps
  | fuel + 1, '?' :: ps => GlobTok.anyChar :: compilePat fuel ps
  | fuel + 1, '[' :: ps =>
    (match parseClassBody ps with
     | Option.none => GlobTok.lit '[' :: compilePat fuel ps
     | Option.some (neg, body, rest) => GlobTok.cls neg body :: compilePat fuel rest)
  | fuel + 1, c :: ps => GlobTok.lit c :: compilePat fuel ps

/-- Match compiled tokens against a character list (full match, as the
`\Z` anchor of `fnmatch.translate` requires).  Each recursive call
strictly decreases `tokens.length + s.length`, so any
`fuel ≥ tokens.length + s.length + 1` is sufficient. -/
def globMatch : Nat → List GlobTok → List Char → Bool
  | 0, _, _ => false
  | _ + 1, [], s => s.isEmpty
  | fuel + 1, GlobTok.star :: ts, s =>
    globMatch fuel ts s ||
      (match s with
       | [] => false
       | _ :: s2 => globMatch fuel (GlobTok.star :: ts) s2)
  | fuel + 1, GlobTok.anyChar :: ts, s =>
    (match s with
     | [] => false
     | _ :: s2 => globMatch fuel ts s2)
  | fuel + 1, GlobTok.lit a :: ts, s =>
    (match s with
     | [] => false
     | c :: s2 => a == c && globMatch fuel ts s2)
  | fuel + 1, GlobTok.cls neg body :: ts, s =>
    (match s with
     | [] => false
     | c :: s2 => (charInSet body c != neg) && globMatch fuel ts s2)

/-- `fnmatch.fnmatch(name, pattern)` on a POSIX platform. -/
def fnmatch (name pattern : String) : Bool :=
  let toks := compilePat (pattern.toList.length + 1) pattern.toList
  globMatch (toks.length + name.toList.length + 1) toks name.toList

/-- `check_path_patterns`: the path matches when `fnmatch` accepts it for
at least one of the patterns. -/
def check_path_patterns (file_path : String) (patterns : List String) : Bool :=
  patterns.any (fun pattern => fnmatch file_path pattern)

/-! ## Diff walking (`check_content_patterns`)

`check_content_patterns` walks `diff_content.split('\n')` keeping a
`current_line` cursor: a hunk header `@@ -a[,b] +c[,d] @@` resets the
cursor to `c`; an added line (starts with `+` but not `+++`) is matched
against the patterns at the cursor position and then advances the cursor;
a removed line leaves the cursor alone; any other line not starting with
a backslash is a context line and advances the cursor. -/

/-- Python `str.split` with a single-character separator: split at every
occurrence, keeping empty pieces (so the result is always nonempty). -/
def splitOnChar (sep : Char) : List Char → List (List Char)
  | [] => [[]]
  | a :: rest =>
    match splitOnChar sep rest with
    | [] => [[]]
    | grp :: rs => if a == sep then [] :: grp :: rs else (a :: grp) :: rs

/-- Consume an exact literal; `Option.none` on mismatch. -/
def dropLit : List Char → List Char → Option (List Char)
  | [], s => Option.some s
  | p :: ps, c :: cs => if p == c then dropLit ps cs else Option.none
  | _ :: _, [] => Option.none

/-- Decimal value of a digit run (how Python's `int` reads the capture). -/
def digitsVal (ds : List Char) : Nat :=
  ds.foldl (fun n c => 10 * n + (c.toNat - 48)) 0

/-- Greedily read `\d+`; fails when no leading digit.  (Python's `\d`
also accepts non-ASCII digits; hunk headers produced by `git diff` are
ASCII, which this covers.) -/
def readNat (l : List Char) : Option (Nat × List Char) :=
  let ds := l.takeWhile Char.isDigit
  if ds.isEmpty then Option.none
  else Option.some (digitsVal ds, l.dropWhile Char.isDigit)

/-- The optional `(?:,\d+)?` group: when a comma follows, digits must
follow it (otherwise the whole header fails to match, as the regex
cannot place the mandatory following character after the comma). -/
def skipOptCommaDigits (l : List Char) : Option (List Char) :=
  match l with
  | ',' :: rest =>
    (match readNat rest with
     | Option.some (_, r) => Option.some r
     | Option.none => Option.none)
  | _ => Option.some l

/-- `re.match(r'^@@ -\d+(?:,\d+)? \+(\d+)(?:,\d+)? @@', line)`, returning
the captured new-file start line. -/
def parseHunkHeader (line : List Char) : Option Nat := do
  let r1 ← dropLit "@@ -".toList line
  let (_, r2) ← readNat r1
  let r3 ← skipOptCommaDigits r2
  let r4 ← dropLit " +".toList r3
  let (c, r5) ← readNat r4
  let r6 ← skipOptCommaDigits r5
  let _ ← dropLit " @@".toList r6
  Option.some c

/-- `diff_line.startswith('+') and not diff_line.startswith('+++')`. -/
def isAddedDiffLine (line : List Char) : Bool :=
  ['+'].isPrefixOf line && !(['+', '+', '+'].isPrefixOf line)

/-- `diff_line.startswith('-') or diff_line.startswith('---')`. -/
def isRemovedDiffLine (line : List Char) : Bool :=
  ['-'].isPrefixOf line || ['-', '-', '-'].isPrefixOf line

/-- `diff_line.startswith('\\')`. -/
def isNoNewlineMarker (line : List Char) : Bool :=
  ['\\'].isPrefixOf line

/-- One iteration of the `check_content_patterns` loop, generic in what
is emitted for an added line (the state is `(accumulated, current_line)`).
The source instantiates `emit` with the per-pattern regex matching. -/
def diffLineStep (emit : List Char → Nat → List α)
    (st : List α × Nat) (line : List Char) : List α × Nat :=
  match parseHunkHeader line with
  | Option.some n => (st.1, n)
  | Option.none =>
    if isAddedDiffLine line then
      (st.1 ++ emit (line.drop 1) st.2, st.2 + 1)
    else if isRemovedDiffLine line then
      st
    else if !isNoNewlineMarker line then
      (st.1, st.2 + 1)
    else
      st

/-- The whole diff walk: fold `diffLineStep` over the split lines,
starting from `current_line = 0`, and return the emitted list. -/
def diffWalk (emit : List Char → Nat → List α) (diff_content : String) : List α :=
  ((splitOnChar '\n' diff_content.toList).foldl (diffLineStep emit) ([], 0)).1

/-- The Diff Line Mapper: one `(text after the marker, current_line)`
pair per added line. -/
def diffAddedLines (diff_content : String) : List (List Char × Nat) :=
  diffWalk (fun line n => [(line, n)]) diff_content

/-- One entry of the `matches` list built by `check_content_patterns`:
`{'pattern': match_text, 'line_number': current_line}`. -/
structure ContentMatch where
  pattern : String
  line_number : Nat
deriving DecidableEq, Repr

/-- The inner double loop of `check_content_patterns` for one added line:
for every pattern in order, every string returned by
`re.findall(pattern, line_content, re.IGNORECASE)` (abstracted as the
`findall` parameter) is recorded at the current line number. -/
def contentEmit (findall : String → List Char → List String)
    (patterns : List String) (line : List Char) (n : Nat) : List ContentMatch :=
  patterns.foldl (fun acc p => acc ++ (findall p line).map (fun t => ⟨t, n⟩)) []

/-- `check_content_patterns`, with the regex engine abstracted as
`findall`. -/
def check_content_patterns (findall : String → List Char → List String)
    (diff_content : String) (patterns : List String) : List ContentMatch :=
  diffWalk (contentEmit findall patterns) diff_content

/-! ## Rule matching and the analysis run (`analyze_file` / `analyze`) -/

/-- One entry of the `patterns` mapping of the configuration, in the form
`analyze_file` reads it: `paths` and `content_patterns` default to `[]`
when absent, `recommendation` to `None`; the `impact_level` string has
already been converted to the enum (`ImpactLevel(...)`). -/
structure RuleConfig where
  name : String
  paths : List String
  content_patterns : List String
  impact_level : ImpactLevel
  description : String
  recommendation : Option String
deriving DecidableEq, Repr

/-- `Found `X` in `file` at line N` — the detail string built for one
deduplicated match. -/
def detailString (file_path : String) (m : ContentMatch) : String :=
  "Found `" ++ m.pattern ++ "` in `" ++ file_path ++ "` at line " ++ Nat.repr m.line_number

/-- The deduplication loop of `analyze_file`: walk the matches keeping a
`seen` set of `(pattern, line_number)` keys, appending a detail string
for each unseen key, and break as soon as five details are retained. -/
def dedupLoop (file_path : String) :
    List ContentMatch → List (String × Nat) → List String → List String
  | [], _, details => details
  | m :: rest, seen, details =>
    let key := (m.pattern, m.line_number)
    if seen.contains key then
      if details.length ≥ 5 then details
      else dedupLoop file_path rest seen details
    else
      let details2 := details ++ [detailString file_path m]
      if details2.length ≥ 5 then details2
      else dedupLoop file_path rest (key :: seen) details2

/-- Keep the first occurrence of every `(pattern, line_number)` key,
dropping later duplicates (no cap).  Reference function used to state
what `dedupLoop` computes. -/
def dedupByKey : List ContentMatch → List (String × Nat) → List ContentMatch
  | [], _ => []
  | m :: rest, seen =>
    if seen.contains (m.pattern, m.line_number) then dedupByKey rest seen
    else m :: dedupByKey rest ((m.pattern, m.line_number) :: seen)

/-- The `ImpactItem` that `analyze_file` creates for a firing rule. -/
def mkItem (findall : String → List Char → List String)
    (rule : RuleConfig) (file_path diff_content : String) : ImpactItem :=
  { category := rule.name,
    impact_level := rule.impact_level,
    file_path := file_path,
    description := rule.description,
    details :=
      if rule.content_patterns.isEmpty then []
      else dedupLoop file_path
        (check_content_patterns findall diff_content rule.content_patterns) [] [],
    recommendation := rule.recommendation }

/-- The body of the per-rule loop of `analyze_file`: skip when declared
path patterns all fail, skip when declared content patterns find no
match, otherwise add the impact item. -/
def ruleStep (findall : String → List Char → List String)
    (file_path diff_content : String)
    (rep : ImpactReport) (rule : RuleConfig) : ImpactReport :=
  if !rule.paths.isEmpty && !(check_path_patterns file_path rule.paths) then
    rep
  else if !rule.content_patterns.isEmpty then
    (if (check_content_patterns findall diff_content rule.content_patterns).isEmpty then
      rep
    else
      rep.add_item (mkItem findall rule file_path diff_content))
  else
    rep.add_item (mkItem findall rule file_path diff_content)

/-- `analyze_file`, with the file's diff text passed in (the source
fetches it through `get_file_diff`, an external `git` call that degrades
to `""` on failure). -/
def analyze_file (findall : String → List Char → List String)
    (rules : List RuleConfig) (file_path diff_content : String)
    (rep : ImpactReport) : ImpactReport :=
  rules.foldl (ruleStep findall file_path diff_content) rep

/-- `file_path.startswith(prefix_str)` for strings. -/
def pyStartsWith (s p : String) : Bool :=
  p.toList.isPrefixOf s.toList

/-- The body of the per-file loop of `analyze`: files under `.github/`
(and the path `.github` itself) are skipped outright. -/
def fileStep (findall : String → List Char → List String)
    (rules : List RuleConfig) (diffOf : String → String)
    (rep : ImpactReport) (file_path : String) : ImpactReport :=
  if pyStartsWith file_path ".github/" || file_path == ".github" then rep
  else analyze_file findall rules file_path (diffOf file_path) rep

/-- `analyze`: record the changed-file list on the report; when it is
empty, return immediately (without generating the summary); otherwise
analyze every file outside `.github/` and generate the summary. -/
def analyze (findall : String → List Char → List String)
    (rules : List RuleConfig) (changed_files : List String)
    (diffOf : String → String) : ImpactReport :=
  let report := { initialReport with changed_files := changed_files }
  if changed_files.isEmpty then report
  else
    (changed_files.foldl (fileStep findall rules diffOf) report).generate_summary

/-- The exit-code decision at the end of `main`: `sys.exit(1)` exactly
when `--fail-on` was supplied and `overall_impact >= threshold`,
otherwise `sys.exit(0)`. -/
def mainExitCode (fail_on : Option ImpactLevel) (overall : ImpactLevel) : Nat :=
  match fail_on with
  | Option.some threshold => if ImpactLevel.ge overall threshold then 1 else 0
  | Option.none => 0

/-! ## The Slack notification sender (`send_slack_notification.py`) -/

/-- JSON-like values, enough for the fixed-shape Slack payload. -/
inductive JVal
  | str (s : String)
  | arr (l : List JVal)
  | obj (l : List (String × JVal))

/-- The `EMOJI` table. -/
def EMOJI : List (String × String) :=
  [("critical", ":red_circle:"),
   ("high", ":large_orange_circle:"),
   ("medium", ":large_yellow_circle:"),
   ("low", ":large_green_circle:")]

/-- `EMOJI.get(impact, ":white_circle:")`. -/
def emojiFor (impact : String) : String :=
  match EMOJI.find? (fun p => p.1 == impact) with
  | Option.some p => p.2
  | Option.none => ":white_circle:"

/-- `impact.upper()` (ASCII uppercasing; the impact strings are ASCII). -/
def pyUpper (s : String) : String :=
  s.map Char.toUpper

/-- `str.strip()` with no argument: remove leading and trailing
whitespace (the relevant ASCII whitespace characters). -/
def pyStrip (s : String) : String :=
  let ws := fun c => c == ' ' || c == '\t' || c == '\n' || c == '\r' ||
    c == Char.ofNat 11 || c == Char.ofNat 12
  String.mk ((((s.toList.dropWhile ws).reverse).dropWhile ws).reverse)

/-- `SKIP_PR_STATUSES = {"draft"}`. -/
def SKIP_PR_STATUSES : List String := ["draft"]

/-- `build_payload`: the fixed-shape blocks payload. -/
def build_payload (repo pr_number pr_url impact : String) : JVal :=
  JVal.obj [("blocks", JVal.arr [
    JVal.obj [
      ("type", JVal.str "header"),
      ("text", JVal.obj [
        ("type", JVal.str "plain_text"),
        ("text", JVal.str "SC Environment Impact Assessment")])],
    JVal.obj [
      ("type", JVal.str "section"),
      ("fields", JVal.arr [
        JVal.obj [("type", JVal.str "mrkdwn"),
          ("text", JVal.str ("*Repository:*\n" ++ repo))],
        JVal.obj [("type", JVal.str "mrkdwn"),
          ("text", JVal.str ("*Pull Request:*\n<" ++ pr_url ++ "|#" ++ pr_number ++ ">"))],
        JVal.obj [("type", JVal.str "mrkdwn"),
          ("text", JVal.str ("*Overall Impact:*\n" ++ emojiFor impact ++ " " ++ pyUpper impact))]])],
    JVal.obj [
      ("type", JVal.str "actions"),
      ("elements", JVal.arr [
        JVal.obj [
          ("type", JVal.str "button"),
          ("text", JVal.obj [
            ("type", JVal.str "plain_text"),
            ("text", JVal.str "View Pull Request")]),
          ("url", JVal.str pr_url)]])]])]

/-- The environment variables `main` reads (absent = unset). -/
structure SlackEnv where
  sc_assessor_slack_url : Option String
  pr_status : Option String
  github_repository : Option String
  github_server_url : Option String
  pr_number : Option String
  overall_impact : Option String
deriving DecidableEq

/-- How a successful run of the sender ended. -/
inductive SlackOutcome
  | skipped
  | sent
deriving DecidableEq, Repr

/-- `os.environ[name]`: a missing mandatory variable raises `KeyError`. -/
def requireEnv (name : String) : Option String → Except String String
  | Option.none => Except.error ("KeyError: " ++ name)
  | Option.some v => Except.ok v

/-- Truthiness of `os.environ.get(...)`: `None` and `""` are falsy. -/
def urlTruthy : Option String → Bool
  | Option.none => false
  | Option.some u => !(u == "")

/-- The two skip conditions of `main`, in source order: no (truthy)
webhook URL configured, or the stripped `PR_STATUS` is a skip status. -/
def slackSkipCond (env : SlackEnv) : Bool :=
  !(urlTruthy env.sc_assessor_slack_url) ||
    SKIP_PR_STATUSES.contains (pyStrip (env.pr_status.getD ""))

/-- `main` of `send_slack_notification.py`.  Delivery
(`urllib.request.urlopen`) is abstracted as `deliver`; an exception it
raises propagates (there is no `try` around it in the source), as does
the `KeyError` for a missing mandatory variable. -/
def slackMain (env : SlackEnv)
    (deliver : String → JVal → Except String Unit) : Except String SlackOutcome :=
  match env.sc_assessor_slack_url with
  | Option.none => Except.ok SlackOutcome.skipped
  | Option.some webhook_url =>
    if webhook_url == "" then Except.ok SlackOutcome.skipped
    else if SKIP_PR_STATUSES.contains (pyStrip (env.pr_status.getD "")) then
      Except.ok SlackOutcome.skipped
    else
      match requireEnv "GITHUB_REPOSITORY" env.github_repository with
      | Except.error e => Except.error e
      | Except.ok repo =>
        match requireEnv "GITHUB_SERVER_URL" env.github_server_url with
        | Except.error e => Except.error e
        | Except.ok server_url =>
          match requireEnv "PR_NUMBER" env.pr_number with
          | Except.error e => Except.error e
          | Except.ok prNum =>
            match requireEnv "OVERALL_IMPACT" env.overall_impact with
            | Except.error e => Except.error e
            | Except.ok impact =>
              let pr_url := server_url ++ "/" ++ repo ++ "/pull/" ++ prNum
              match deliver webhook_url (build_payload repo prNum pr_url impact) with
              | Except.error e => Except.error e
              | Except.ok _ => Except.ok SlackOutcome.sent

/-! ## Statement-side reference definitions

These restate parts of the specification in direct recursive form, to be
compared with the fold-based embeddings above. -/

/-- Concatenation of the images of a list's elements, in order. -/
def concatMap (f : α → List β) : List α → List β
  | [] => []
  | a :: l => f a ++ concatMap f l

/-- The Diff Line Mapper as the specification words it: walk the diff
lines keeping a cursor; a hunk header `@@ -a[,b] +c[,d] @@` sets the
cursor to `c`; an added line is emitted at the cursor position and
advances it; a removed line leaves the cursor unchanged; a context line
advances it without emitting (`\ No newline` markers are not file lines
and leave the cursor unchanged). -/
def specCursorMap : List (List Char) → Nat → List (List Char × Nat)
  | [], _ => []
  | line :: rest, cur =>
    match parseHunkHeader line with
    | Option.some c => specCursorMap rest c
    | Option.none =>
      if isAddedDiffLine line then (line.drop 1, cur) :: specCursorMap rest (cur + 1)
      else if isRemovedDiffLine line then specCursorMap rest cur
      else if !isNoNewlineMarker line then specCursorMap rest (cur + 1)
      else specCursorMap rest cur

/-- The firing condition of one rule on one file, as the specification
words it: every declared path filter family must have a match when
present, and declared content filters must find at least one match. -/
def ruleFireCond (findall : String → List Char → List String)
    (rule : RuleConfig) (file_path diff_content : String) : Bool :=
  (rule.paths.isEmpty || check_path_patterns file_path rule.paths)
    && (rule.content_patterns.isEmpty
        || !(check_content_patterns findall diff_content rule.content_patterns).isEmpty)

/-! ## Concrete fixtures used by witnesses and counterexamples -/

/-- A rule with only `paths = ["deploy/*.yml"]`, as in the `clowdapp`
portion of the default configuration. -/
def clowdappRule : RuleConfig :=
  { name := "clowdapp_config",
    paths := ["deploy/*.yml"],
    content_patterns := [],
    impact_level := ImpactLevel.high,
    description := "ClowdApp configuration change",
    recommendation := Option.some "Verify all changes are compatible with SC Environment" }

/-- A medium-severity item, for permutation tests. -/
def itemMedium : ImpactItem :=
  { category := "secrets_management", impact_level := ImpactLevel.medium,
    file_path := "deploy/clowdapp.yml", description := "Secrets configuration change",
    details := [], recommendation := Option.none }

/-- A high-severity item, for permutation tests. -/
def itemHigh : ImpactItem :=
  { category := "database_migrations", impact_level := ImpactLevel.high,
    file_path := "migrations/versions/0001.py", description := "Database migration detected",
    details := [], recommendation := Option.none }

/-- A path-only rule matching every path (no filters at all). -/
def anyPathRule : RuleConfig :=
  { name := "environment_config", paths := [], content_patterns := [],
    impact_level := ImpactLevel.low,
    description := "Environment configuration change detected",
    recommendation := Option.none }

/-- A content-only rule, as in the `kessel` portion of the default
configuration. -/
def kesselRule : RuleConfig :=
  { name := "kessel_integration", paths := [], content_patterns := ["kessel", "KESSEL"],
    impact_level := ImpactLevel.critical,
    description := "Kessel integration change",
    recommendation := Option.none }

/-- A regex engine stub whose every pattern matches every line, returning
the pattern text itself (used to instantiate the abstract `findall`). -/
def findallAll : String → List Char → List String :=
  fun p _ => [p]

/-- A one-hunk diff adding a single line at resulting-file line 1. -/
def oneLineDiff : String := "@@ -0,0 +1 @@\n+uses kessel here"

/-- A rule whose configured `impact_level` is the string `"none"`. -/
def noneRule : RuleConfig :=
  { name := "informational", paths := [], content_patterns := [],
    impact_level := ImpactLevel.none,
    description := "Informational finding", recommendation := Option.none }

/-- The item the `noneRule` produces on `app.py` with an empty diff. -/
def noneItem : ImpactItem := mkItem findallAll noneRule "app.py" ""

/-- A fully populated environment for the Slack sender, with a
non-draft status. -/
def slackEnvFull : SlackEnv :=
  { sc_assessor_slack_url := Option.some "https://hooks.example/T000/B000",
    pr_status := Option.some "open",
    github_repository := Option.some "RedHatInsights/shared-workflows",
    github_server_url := Option.some "https://github.com",
    pr_number := Option.some "42",
    overall_impact := Option.some "high" }

/-! ## General lemmas -/

theorem concatMap_append (f : α → List β) (l₁ l₂ : List α) :
    concatMap f (l₁ ++ l₂) = concatMap f l₁ ++ concatMap f l₂ := by
  induction l₁ with
  | nil => simp [concatMap]
  | cons a l ih => simp [concatMap, ih]

theorem concatMap_singleton (l : List α) :
    concatMap (fun x => [x]) l = l := by
  induction l with
  | nil => rfl
  | cons a l ih => simp [concatMap, ih]

theorem concatMap_eq_nil_iff (f : α → List β) (l : List α) :
    concatMap f l = [] ↔ ∀ x ∈ l, f x = [] := by
  induction l with
  | nil => simp [concatMap]
  | cons a l ih => simp [concatMap, ih]

theorem foldl_append_eq (f : α → List β) :
    ∀ (l : List α) (acc : List β),
      l.foldl (fun a x => a ++ f x) acc = acc ++ concatMap f l := by
  intro l
  induction l with
  | nil => intro acc; simp [concatMap]
  | cons a l ih => intro acc; simp [List.foldl, concatMap, ih]

/-- `contentEmit` in direct form. -/
theorem contentEmit_eq (findall : String → List Char → List String)
    (patterns : List String) (line : List Char) (n : Nat) :
    contentEmit findall patterns line n
      = concatMap (fun p => (findall p line).map (fun t => ContentMatch.mk t n)) patterns := by
  unfold contentEmit
  rw [foldl_append_eq]
  simp

/-! ## The diff walk refines the specification's cursor mapper -/

/-- A line beginning with `+` cannot parse as a hunk header. -/
theorem added_not_hunk (line : List Char) (h : isAddedDiffLine line = true) :
    parseHunkHeader line = Option.none := by
  cases line with
  | nil => simp [isAddedDiffLine, List.isPrefixOf] at h
  | cons c t =>
    have hc : c = '+' := by
      simp [isAddedDiffLine, List.isPrefixOf] at h
      exact h.1.symm
    subst hc
    have hlit : "@@ -".toList = ['@', '@', ' ', '-'] := rfl
    unfold parseHunkHeader
    rw [hlit]
    simp [dropLit]

/-- Definitional equation of `specCursorMap` on a cons cell. -/
theorem specCursorMap_cons (line : List Char) (rest : List (List Char)) (cur : Nat) :
    specCursorMap (line :: rest) cur
      = (match parseHunkHeader line with
         | Option.some c => specCursorMap rest c
         | Option.none =>
           if isAddedDiffLine line then (line.drop 1, cur) :: specCursorMap rest (cur + 1)
           else if isRemovedDiffLine line then specCursorMap rest cur
           else if !isNoNewlineMarker line then specCursorMap rest (cur + 1)
           else specCursorMap rest cur) := rfl

/-- The generic diff fold equals emitting over the specification's
cursor mapper. -/
theorem foldl_diffLineStep (emit : List Char → Nat → List α) :
    ∀ (lines : List (List Char)) (acc : List α) (cur : Nat),
      (lines.foldl (diffLineStep emit) (acc, cur)).1
        = acc ++ concatMap (fun p => emit p.1 p.2) (specCursorMap lines cur) := by
  intro lines
  induction lines with
  | nil => intro acc cur; simp [concatMap, specCursorMap]
  | cons line rest ih =>
    intro acc cur
    rw [List.foldl_cons, specCursorMap_cons]
    cases h : parseHunkHeader line with
    | some c =>
      have hstep : diffLineStep emit (acc, cur) line = (acc, c) := by
        unfold diffLineStep; rw [h]
      rw [hstep]
      exact ih acc c
    | none =>
      cases h1 : isAddedDiffLine line with
      | true =>
        have hstep : diffLineStep emit (acc, cur) line
            = (acc ++ emit (line.drop 1) cur, cur + 1) := by
          unfold diffLineStep; rw [h]; simp [h1]
        rw [hstep, ih]
        simp [concatMap]
      | false =>
        cases h2 : isRemovedDiffLine line with
        | true =>
          have hstep : diffLineStep emit (acc, cur) line = (acc, cur) := by
            unfold diffLineStep; rw [h]; simp [h1, h2]
          rw [hstep]
          exact ih acc cur
        | false =>
          cases h3 : isNoNewlineMarker line with
          | true =>
            have hstep : diffLineStep emit (acc, cur) line = (acc, cur) := by
              unfold diffLineStep; rw [h]; simp [h1, h2, h3]
            rw [hstep]
            exact ih acc cur
          | false =>
            have hstep : diffLineStep emit (acc, cur) line = (acc, cur + 1) := by
              unfold diffLineStep; rw [h]; simp [h1, h2, h3]
            rw [hstep]
            exact ih acc (cur + 1)

/-- `diffWalk` in terms of the cursor mapper. -/
theorem diffWalk_eq (emit : List Char → Nat → List α) (diff_content : String) :
    diffWalk emit diff_content
      = concatMap (fun p => emit p.1 p.2)
          (specCursorMap (splitOnChar '\n' diff_content.toList) 0) := by
  unfold diffWalk
  rw [foldl_diffLineStep]
  simp

/-- The Diff Line Mapper embedded from the source equals the
specification's cursor mapper. -/
theorem diffAddedLines_eq (diff_content : String) :
    diffAddedLines diff_content
      = specCursorMap (splitOnChar '\n' diff_content.toList) 0 := by
  unfold diffAddedLines
  rw [diffWalk_eq]
  exact concatMap_singleton _

/-- `check_content_patterns` factors through the Diff Line Mapper. -/
theorem check_content_patterns_eq (findall : String → List Char → List String)
    (diff_content : String) (patterns : List String) :
    check_content_patterns findall diff_content patterns
      = concatMap (fun p => contentEmit findall patterns p.1 p.2)
          (diffAddedLines diff_content) := by
  unfold check_content_patterns
  rw [diffWalk_eq, diffAddedLines_eq]

/-- The cursor mapper emits exactly one pair per added line. -/
theorem specCursorMap_length :
    ∀ (lines : List (List Char)) (cur : Nat),
      (specCursorMap lines cur).length = (lines.filter isAddedDiffLine).length := by
  intro lines
  induction lines with
  | nil => intro cur; rfl
  | cons line rest ih =>
    intro cur
    rw [specCursorMap_cons]
    cases h : parseHunkHeader line with
    | some c =>
      have hna : isAddedDiffLine line = false := by
        cases ha : isAddedDiffLine line with
        | false => rfl
        | true => rw [added_not_hunk line ha] at h; cases h
      simp [List.filter_cons, hna, ih]
    | none =>
      cases h1 : isAddedDiffLine line with
      | true => simp [h1, List.filter_cons, ih]
      | false =>
        cases h2 : isRemovedDiffLine line with
        | true => simp [h1, h2, List.filter_cons, ih]
        | false =>
          cases h3 : isNoNewlineMarker line with
          | true => simp [h1, h2, h3, List.filter_cons, ih]
          | false => simp [h1, h2, h3, List.filter_cons, ih]

/-- C2: for every unified-diff text, the diff line mapper emits exactly
one `(line_text, line_number)` pair per added line (a line starting with
a single `+`, not `+++`), in file order, with the line numbers given by
the cursor computation the claim describes: the cursor is set to the
`+c` value of each hunk header `@@ -a[,b] +c[,d] @@`, incremented on
added and context lines, left unchanged on deleted lines, and reset by
each new hunk header.  The third conjunct checks the specification's
hand-constructed two-hunk example, whose emitted numbers are 2 and 12. -/
theorem C2_diff_line_mapper : ∀ diff_content : String,
    diffAddedLines diff_content
      = specCursorMap (splitOnChar '\n' diff_content.toList) 0
    ∧ (diffAddedLines diff_content).length
      = ((splitOnChar '\n' diff_content.toList).filter isAddedDiffLine).length
    ∧ diffAddedLines "@@ -1,2 +1,3 @@\n line1\n+added1\n line2\n@@ -10,1 +11,2 @@\n line10\n+added2"
      = [("added1".toList, 2), ("added2".toList, 12)] := by
  intro diff_content
  refine ⟨diffAddedLines_eq diff_content, ?_, by decide⟩
  rw [diffAddedLines_eq]
  exact specCursorMap_length _ 0

/-! ## Severity aggregation lemmas -/

theorem add_item_overall (r : ImpactReport) (i : ImpactItem) :
    (r.add_item i).overall_impact = ImpactLevel.max r.overall_impact i.impact_level := rfl

theorem add_item_items (r : ImpactReport) (i : ImpactItem) :
    (r.add_item i).items = r.items ++ [i] := rfl

theorem foldl_add_item_overall :
    ∀ (items : List ImpactItem) (r : ImpactReport),
      (items.foldl ImpactReport.add_item r).overall_impact
        = (items.map (fun i => i.impact_level)).foldl ImpactLevel.max r.overall_impact := by
  intro items
  induction items with
  | nil => intro r; rfl
  | cons i l ih =>
    intro r
    rw [List.foldl_cons, List.map_cons, List.foldl_cons, ih, add_item_overall]

theorem max_assoc (a b c : ImpactLevel) :
    ImpactLevel.max (ImpactLevel.max a b) c = ImpactLevel.max a (ImpactLevel.max b c) := by
  cases a <;> cases b <;> cases c <;> rfl

theorem max_comm (a b : ImpactLevel) :
    ImpactLevel.max a b = ImpactLevel.max b a := by
  cases a <;> cases b <;> rfl

theorem max_idem (a : ImpactLevel) : ImpactLevel.max a a = a := by
  cases a <;> rfl

theorem foldl_max_perm {l₁ l₂ : List ImpactLevel} (hp : l₁.Perm l₂) :
    ∀ init, l₁.foldl ImpactLevel.max init = l₂.foldl ImpactLevel.max init := by
  induction hp with
  | nil => intro init; rfl
  | cons x _ ih =>
    intro init
    rw [List.foldl_cons, List.foldl_cons]
    exact ih _
  | swap x y l =>
    intro init
    rw [List.foldl_cons, List.foldl_cons, List.foldl_cons, List.foldl_cons]
    rw [max_assoc, max_assoc, max_comm y x]
  | trans _ _ ih1 ih2 =>
    intro init
    exact (ih1 init).trans (ih2 init)

/-- C3: the report's overall severity after adding any sequence of
evidences to the fresh report equals the fold of `max` over their
severities starting at NONE; it is invariant under permuting the
insertion order; and the binary `max` over the fixed rank
NONE < LOW < MEDIUM < HIGH < CRITICAL is associative, commutative
and idempotent. -/
theorem C3_overall_is_max : ∀ (items items2 : List ImpactItem) (a b c : ImpactLevel),
    ((items.foldl ImpactReport.add_item initialReport).overall_impact
      = (items.map (fun i => i.impact_level)).foldl ImpactLevel.max ImpactLevel.none)
    ∧ (items.Perm items2 →
        (items.foldl ImpactReport.add_item initialReport).overall_impact
          = (items2.foldl ImpactReport.add_item initialReport).overall_impact)
    ∧ ImpactLevel.max (ImpactLevel.max a b) c = ImpactLevel.max a (ImpactLevel.max b c)
    ∧ ImpactLevel.max a b = ImpactLevel.max b a
    ∧ ImpactLevel.max a a = a := by
  intro items items2 a b c
  refine ⟨foldl_add_item_overall items initialReport, ?_, max_assoc a b c, max_comm a b,
    max_idem a⟩
  intro hp
  rw [foldl_add_item_overall, foldl_add_item_overall]
  exact foldl_max_perm (hp.map _) _

/-- Witness for C3 at a concrete pair of permuted evidence lists. -/
theorem C3_overall_is_max_witness :
    ([itemMedium, itemHigh].foldl ImpactReport.add_item initialReport).overall_impact
      = ([itemHigh, itemMedium].foldl ImpactReport.add_item initialReport).overall_impact := by
  exact (C3_overall_is_max [itemMedium, itemHigh] [itemHigh, itemMedium]
    ImpactLevel.none ImpactLevel.none ImpactLevel.none).2.1
    (List.Perm.swap itemHigh itemMedium [])

/-! ## Rule matching characterization -/

/-- `analyze_file` on a single rule is one `ruleStep`. -/
theorem analyze_file_single (findall : String → List Char → List String)
    (rule : RuleConfig) (file_path diff_content : String) (rep : ImpactReport) :
    analyze_file findall [rule] file_path diff_content rep
      = ruleStep findall file_path diff_content rep rule := rfl

/-- One `ruleStep` adds the item exactly when the firing condition
holds. -/
theorem ruleStep_char (findall : String → List Char → List String)
    (file_path diff_content : String) (rep : ImpactReport) (rule : RuleConfig) :
    ruleStep findall file_path diff_content rep rule
      = if ruleFireCond findall rule file_path diff_content
        then rep.add_item (mkItem findall rule file_path diff_content)
        else rep := by
  unfold ruleStep ruleFireCond
  cases hp : rule.paths.isEmpty <;>
    cases hpp : check_path_patterns file_path rule.paths <;>
      cases hc : rule.content_patterns.isEmpty <;>
        cases hm : (check_content_patterns findall diff_content rule.content_patterns).isEmpty <;>
          simp [hp, hpp, hc, hm]

/-- C1 (counterexample): the claim says a rule with
`path_patterns = ["deploy/*.yml"]` does not fire on
`deploy/sub/clowdapp.yml` because `*` stays within one path segment.
The code uses `fnmatch`, whose `*` matches across `/`: the path check
succeeds and the rule fires on that path. -/
theorem C1_counterexample :
    check_path_patterns "deploy/sub/clowdapp.yml" ["deploy/*.yml"] = true
    ∧ (analyze_file (fun _ _ => []) [clowdappRule] "deploy/sub/clowdapp.yml" ""
        initialReport).items.length = 1 := by
  exact ⟨by decide, by decide⟩

/-- C1 (amended): a rule whose path_patterns are exactly
`["deploy/*.yml"]` and with no content_patterns fires on
`deploy/clowdapp.yml` with empty details regardless of diff content,
and it also fires on `deploy/sub/clowdapp.yml`: under `fnmatch`
semantics `*` matches across `/` as well. -/
theorem C1_glob_across_segments :
    ∀ (rule : RuleConfig) (findall : String → List Char → List String)
      (diff_content : String) (rep : ImpactReport),
    rule.paths = ["deploy/*.yml"] → rule.content_patterns = [] →
    ((analyze_file findall [rule] "deploy/clowdapp.yml" diff_content rep).items
       = rep.items ++ [mkItem findall rule "deploy/clowdapp.yml" diff_content]
     ∧ (analyze_file findall [rule] "deploy/sub/clowdapp.yml" diff_content rep).items
       = rep.items ++ [mkItem findall rule "deploy/sub/clowdapp.yml" diff_content]
     ∧ (mkItem findall rule "deploy/clowdapp.yml" diff_content).details = []
     ∧ fnmatch "deploy/sub/clowdapp.yml" "deploy/*.yml" = true) := by
  intro rule findall diff_content rep hpaths hcont
  have fire : ∀ fp : String, check_path_patterns fp ["deploy/*.yml"] = true →
      ruleFireCond findall rule fp diff_content = true := by
    intro fp hfp
    unfold ruleFireCond
    rw [hpaths, hcont, hfp]
    simp
  refine ⟨?_, ?_, by simp [mkItem, hcont], by decide⟩
  · rw [analyze_file_single, ruleStep_char, fire "deploy/clowdapp.yml" (by decide)]
    rfl
  · rw [analyze_file_single, ruleStep_char, fire "deploy/sub/clowdapp.yml" (by decide)]
    rfl

/-- Witness for C1 at the concrete `clowdapp` rule. -/
theorem C1_glob_across_segments_witness :
    (analyze_file (fun _ _ => []) [clowdappRule] "deploy/clowdapp.yml" "" initialReport).items
      = initialReport.items ++ [mkItem (fun _ _ => []) clowdappRule "deploy/clowdapp.yml" ""]
    ∧ (analyze_file (fun _ _ => []) [clowdappRule] "deploy/sub/clowdapp.yml" "" initialReport).items
      = initialReport.items ++ [mkItem (fun _ _ => []) clowdappRule "deploy/sub/clowdapp.yml" ""]
    ∧ (mkItem (fun _ _ => []) clowdappRule "deploy/clowdapp.yml" "").details = []
    ∧ fnmatch "deploy/sub/clowdapp.yml" "deploy/*.yml" = true := by
  exact C1_glob_across_segments clowdappRule (fun _ _ => []) "" initialReport rfl rfl

/-! ## Content-match existence -/

theorem isEmpty_false_iff (l : List α) : l.isEmpty = false ↔ l ≠ [] := by
  cases l <;> simp

theorem concatMap_ne_nil_iff (f : α → List β) (l : List α) :
    concatMap f l ≠ [] ↔ ∃ x ∈ l, f x ≠ [] := by
  rw [Ne, concatMap_eq_nil_iff]
  push_neg
  rfl

theorem contentEmit_ne_nil_iff (findall : String → List Char → List String)
    (patterns : List String) (line : List Char) (n : Nat) :
    contentEmit findall patterns line n ≠ [] ↔ ∃ pat ∈ patterns, findall pat line ≠ [] := by
  rw [contentEmit_eq, concatMap_ne_nil_iff]
  simp [List.map_eq_nil_iff]

/-- The match list is nonempty exactly when some content pattern matches
some added line of the diff. -/
theorem content_ne_iff (findall : String → List Char → List String)
    (diff_content : String) (patterns : List String) :
    (check_content_patterns findall diff_content patterns).isEmpty = false
      ↔ ∃ p ∈ diffAddedLines diff_content, ∃ pat ∈ patterns, findall pat p.1 ≠ [] := by
  rw [isEmpty_false_iff, check_content_patterns_eq, concatMap_ne_nil_iff]
  simp only [contentEmit_ne_nil_iff]

/-- C4: a rule produces an evidence for a file exactly when (it declares
no path_patterns, or the path glob-matches one of them) and (it declares
no content_patterns, or some content pattern matches some added line of
the file's diff); in particular, a path-matching rule whose content
patterns find nothing produces no evidence, and a rule with no content
patterns fires on path match alone with an empty detail list. -/
theorem C4_rule_fires_iff :
    ∀ (findall : String → List Char → List String) (rule : RuleConfig)
      (file_path diff_content : String) (rep : ImpactReport),
    ((analyze_file findall [rule] file_path diff_content rep).items.length
       = rep.items.length
         + (if ruleFireCond findall rule file_path diff_content then 1 else 0))
    ∧ ((check_content_patterns findall diff_content rule.content_patterns).isEmpty = false
       ↔ ∃ p ∈ diffAddedLines diff_content,
           ∃ pat ∈ rule.content_patterns, findall pat p.1 ≠ [])
    ∧ (rule.content_patterns = [] →
        ruleFireCond findall rule file_path diff_content = true →
        (analyze_file findall [rule] file_path diff_content rep).items
          = rep.items ++ [{ category := rule.name,
                            impact_level := rule.impact_level,
                            file_path := file_path,
                            description := rule.description,
                            details := [],
                            recommendation := rule.recommendation }]) := by
  intro findall rule file_path diff_content rep
  refine ⟨?_, content_ne_iff findall diff_content rule.content_patterns, ?_⟩
  · rw [analyze_file_single, ruleStep_char]
    cases h : ruleFireCond findall rule file_path diff_content <;>
      simp [h, add_item_items]
  · intro hc hfire
    rw [analyze_file_single, ruleStep_char, hfire]
    simp [add_item_items, mkItem, hc]

/-- Witness for C4 at a rule with no filters at all (fires on every
file with empty details). -/
theorem C4_rule_fires_iff_witness :
    (analyze_file findallAll [anyPathRule] "app.py" "" initialReport).items
      = initialReport.items ++ [{ category := anyPathRule.name,
                                  impact_level := anyPathRule.impact_level,
                                  file_path := "app.py",
                                  description := anyPathRule.description,
                                  details := [],
                                  recommendation := anyPathRule.recommendation }] := by
  exact (C4_rule_fires_iff findallAll anyPathRule "app.py" "" initialReport).2.2
    rfl (by decide)

/-! ## Deduplication and the five-detail cap -/

theorem dedupLoop_cons (fp : String) (m : ContentMatch) (rest : List ContentMatch)
    (seen : List (String × Nat)) (details : List String) :
    dedupLoop fp (m :: rest) seen details
      = (if seen.contains (m.pattern, m.line_number) then
          (if details.length ≥ 5 then details else dedupLoop fp rest seen details)
        else
          (if (details ++ [detailString fp m]).length ≥ 5 then details ++ [detailString fp m]
           else dedupLoop fp rest ((m.pattern, m.line_number) :: seen)
             (details ++ [detailString fp m]))) := rfl

theorem dedupByKey_cons (m : ContentMatch) (rest : List ContentMatch)
    (seen : List (String × Nat)) :
    dedupByKey (m :: rest) seen
      = (if seen.contains (m.pattern, m.line_number) then dedupByKey rest seen
         else m :: dedupByKey rest ((m.pattern, m.line_number) :: seen)) := rfl

/-- What the detail loop computes: the details accumulated so far,
extended by the formatted first occurrences of the remaining distinct
keys, up to the cap of five retained details. -/
theorem dedupLoop_spec (fp : String) :
    ∀ (ms : List ContentMatch) (seen : List (String × Nat)) (details : List String),
      details.length < 5 →
      dedupLoop fp ms seen details
        = details ++ ((dedupByKey ms seen).take (5 - details.length)).map (detailString fp) := by
  intro ms
  induction ms with
  | nil => intro seen details h; simp [dedupLoop, dedupByKey]
  | cons m rest ih =>
    intro seen details h
    rw [dedupLoop_cons, dedupByKey_cons]
    cases hseen : seen.contains (m.pattern, m.line_number) with
    | true =>
      have h5 : ¬ details.length ≥ 5 := by omega
      rw [if_pos rfl, if_neg h5]
      exact ih seen details h
    | false =>
      have hfalse : ¬ (false = true) := by simp
      rw [if_neg hfalse, if_neg hfalse]
      by_cases h4 : (details ++ [detailString fp m]).length ≥ 5
      · rw [if_pos h4]
        have hlen : details.length = 4 := by
          simp at h4
          omega
        have h45 : 5 - details.length = 1 := by omega
        rw [h45]
        simp [List.take]
      · rw [if_neg h4]
        have hlt : (details ++ [detailString fp m]).length < 5 := by omega
        rw [ih ((m.pattern, m.line_number) :: seen) (details ++ [detailString fp m]) hlt]
        have h55 : 5 - details.length = (5 - (details ++ [detailString fp m]).length) + 1 := by
          simp at h4 ⊢
          omega
        rw [h55, List.take_succ_cons]
        simp

/-- C5: for a firing rule with content patterns, the retained detail
entries are the formatted first occurrences of distinct
`(matched substring, line number)` pairs, in first-seen order, capped at
five: a repeated pair yields one entry, and more than five distinct
pairs are truncated to exactly five. -/
theorem C5_dedup_cap :
    ∀ (file_path : String) (mlist : List ContentMatch)
      (findall : String → List Char → List String) (rule : RuleConfig)
      (diff_content : String) (rep : ImpactReport),
    (dedupLoop file_path mlist [] []
       = ((dedupByKey mlist []).take 5).map (detailString file_path))
    ∧ ((dedupLoop file_path mlist [] []).length = min 5 (dedupByKey mlist []).length)
    ∧ ((dedupLoop file_path mlist [] []).length ≤ 5)
    ∧ (∀ m : ContentMatch, dedupLoop file_path [m, m] [] [] = [detailString file_path m])
    ∧ (rule.paths = [] → rule.content_patterns ≠ [] →
        (check_content_patterns findall diff_content rule.content_patterns).isEmpty = false →
        (analyze_file findall [rule] file_path diff_content rep).items
          = rep.items ++ [{ category := rule.name,
                            impact_level := rule.impact_level,
                            file_path := file_path,
                            description := rule.description,
                            details := ((dedupByKey (check_content_patterns findall diff_content rule.content_patterns) []).take 5).map (detailString file_path),
                            recommendation := rule.recommendation }]) := by
  intro file_path mlist findall rule diff_content rep
  have hmain : ∀ ms : List ContentMatch,
      dedupLoop file_path ms [] [] = ((dedupByKey ms []).take 5).map (detailString file_path) := by
    intro ms
    have := dedupLoop_spec file_path ms [] [] (by decide)
    simpa using this
  refine ⟨hmain mlist, ?_, ?_, ?_, ?_⟩
  · rw [hmain mlist]
    simp [List.length_take]
  · rw [hmain mlist]
    simp [List.length_take]
  · intro m
    rw [hmain [m, m]]
    simp [dedupByKey]
  · intro hpaths hcont hmatches
    rw [analyze_file_single, ruleStep_char]
    have hce : rule.content_patterns.isEmpty = false := (isEmpty_false_iff _).mpr hcont
    have hfire : ruleFireCond findall rule file_path diff_content = true := by
      unfold ruleFireCond
      rw [hpaths, hce, hmatches]
      simp
    rw [hfire]
    have hmk : mkItem findall rule file_path diff_content
        = { category := rule.name, impact_level := rule.impact_level,
            file_path := file_path, description := rule.description,
            details := ((dedupByKey (check_content_patterns findall diff_content
                rule.content_patterns) []).take 5).map (detailString file_path),
            recommendation := rule.recommendation } := by
      unfold mkItem
      rw [hce, hmain]
      rfl
    rw [if_pos rfl, add_item_items, hmk]

/-- Witness for C5 at the kessel rule on a one-line diff. -/
theorem C5_dedup_cap_witness :
    (analyze_file findallAll [kesselRule] "app.py" oneLineDiff initialReport).items
      = initialReport.items ++ [{ category := kesselRule.name,
                                  impact_level := kesselRule.impact_level,
                                  file_path := "app.py",
                                  description := kesselRule.description,
                                  details := ((dedupByKey (check_content_patterns findallAll oneLineDiff kesselRule.content_patterns) []).take 5).map (detailString "app.py"),
                                  recommendation := kesselRule.recommendation }] := by
  exact (C5_dedup_cap "app.py" [] findallAll kesselRule oneLineDiff initialReport).2.2.2.2
    rfl (by decide) (by decide)

/-! ## The `.github/` exclusion and the shape of `analyze` -/

theorem analyze_file_cons (findall : String → List Char → List String)
    (rule : RuleConfig) (rest : List RuleConfig)
    (file_path diff_content : String) (r : ImpactReport) :
    analyze_file findall (rule :: rest) file_path diff_content r
      = analyze_file findall rest file_path diff_content
          (ruleStep findall file_path diff_content r rule) := rfl

theorem add_item_cf (r : ImpactReport) (i : ImpactItem) (c : List String) :
    ImpactReport.add_item { r with changed_files := c } i
      = { r.add_item i with changed_files := c } := rfl

theorem ruleStep_cf (findall : String → List Char → List String)
    (file_path diff_content : String) (r : ImpactReport) (c : List String)
    (rule : RuleConfig) :
    ruleStep findall file_path diff_content { r with changed_files := c } rule
      = { ruleStep findall file_path diff_content r rule with changed_files := c } := by
  rw [ruleStep_char, ruleStep_char]
  cases h : ruleFireCond findall rule file_path diff_content <;> simp [add_item_cf]

theorem analyze_file_cf (findall : String → List Char → List String)
    (file_path diff_content : String) :
    ∀ (rules : List RuleConfig) (r : ImpactReport) (c : List String),
      analyze_file findall rules file_path diff_content { r with changed_files := c }
        = { analyze_file findall rules file_path diff_content r with changed_files := c } := by
  intro rules
  induction rules with
  | nil => intro r c; rfl
  | cons rule rest ih =>
    intro r c
    rw [analyze_file_cons, analyze_file_cons, ruleStep_cf, ih]

theorem fileStep_cf (findall : String → List Char → List String)
    (rules : List RuleConfig) (diffOf : String → String)
    (r : ImpactReport) (c : List String) (file_path : String) :
    fileStep findall rules diffOf { r with changed_files := c } file_path
      = { fileStep findall rules diffOf r file_path with changed_files := c } := by
  unfold fileStep
  by_cases h : (pyStartsWith file_path ".github/" || file_path == ".github") = true
  · rw [if_pos h, if_pos h]
  · rw [if_neg h, if_neg h]
    exact analyze_file_cf findall file_path (diffOf file_path) rules r c

theorem foldl_fileStep_cf (findall : String → List Char → List String)
    (rules : List RuleConfig) (diffOf : String → String) :
    ∀ (files : List String) (r : ImpactReport) (c : List String),
      files.foldl (fileStep findall rules diffOf) { r with changed_files := c }
        = { files.foldl (fileStep findall rules diffOf) r with changed_files := c } := by
  intro files
  induction files with
  | nil => intro r c; rfl
  | cons fp rest ih =>
    intro r c
    rw [List.foldl_cons, List.foldl_cons, fileStep_cf, ih]

theorem generate_summary_cf (r : ImpactReport) (c : List String) :
    ImpactReport.generate_summary { r with changed_files := c }
      = { r.generate_summary with changed_files := c } := rfl

theorem fileStep_skip (findall : String → List Char → List String)
    (rules : List RuleConfig) (diffOf : String → String)
    (r : ImpactReport) (file_path : String)
    (h : (pyStartsWith file_path ".github/" || file_path == ".github") = true) :
    fileStep findall rules diffOf r file_path = r := by
  unfold fileStep
  rw [if_pos h]

/-- `analyze` on a nonempty changed-file list is the per-file fold from
the fresh report followed by `generate_summary`, with the changed-file
list recorded on the report. -/
theorem analyze_char (findall : String → List Char → List String)
    (rules : List RuleConfig) (changed : List String) (diffOf : String → String)
    (h : changed ≠ []) :
    analyze findall rules changed diffOf
      = { (changed.foldl (fileStep findall rules diffOf) initialReport).generate_summary
          with changed_files := changed } := by
  unfold analyze
  have hne : ¬ (changed.isEmpty = true) := by
    rw [(isEmpty_false_iff changed).mpr h]
    simp
  rw [if_neg hne, foldl_fileStep_cf, generate_summary_cf]

theorem foldl_fileStep_middle (findall : String → List Char → List String)
    (rules : List RuleConfig) (diffOf : String → String)
    (pre post : List String) (file_path : String)
    (h : (pyStartsWith file_path ".github/" || file_path == ".github") = true)
    (r : ImpactReport) :
    (pre ++ file_path :: post).foldl (fileStep findall rules diffOf) r
      = (pre ++ post).foldl (fileStep findall rules diffOf) r := by
  rw [List.foldl_append, List.foldl_append, List.foldl_cons,
    fileStep_skip findall rules diffOf _ file_path h]

/-- C6: a changed file under the `.github/` prefix generates zero
evidences and contributes nothing to the overall severity or the counts,
whatever the rules and its diff content: removing it from the
changed-file list leaves the report's items and overall severity (and,
when other files remain, the summary) unchanged. -/
theorem C6_github_excluded :
    ∀ (findall : String → List Char → List String) (rules : List RuleConfig)
      (pre post : List String) (file_path : String) (diffOf : String → String),
    (pyStartsWith file_path ".github/" || file_path == ".github") = true →
    ((analyze findall rules (pre ++ file_path :: post) diffOf).items
       = (analyze findall rules (pre ++ post) diffOf).items
     ∧ (analyze findall rules (pre ++ file_path :: post) diffOf).overall_impact
       = (analyze findall rules (pre ++ post) diffOf).overall_impact
     ∧ (pre ++ post ≠ [] →
         (analyze findall rules (pre ++ file_path :: post) diffOf).summary
           = (analyze findall rules (pre ++ post) diffOf).summary)) := by
  intro findall rules pre post file_path diffOf h
  have hne : pre ++ file_path :: post ≠ [] := by simp
  rw [analyze_char findall rules _ diffOf hne,
    foldl_fileStep_middle findall rules diffOf pre post file_path h]
  by_cases h2 : pre ++ post = []
  · obtain ⟨hpre, hpost⟩ := List.append_eq_nil.mp h2
    subst hpre
    subst hpost
    refine ⟨?_, ?_, fun hc => absurd rfl hc⟩
    · simp [analyze, ImpactReport.generate_summary, initialReport]
    · simp [analyze, ImpactReport.generate_summary, initialReport]
  · rw [analyze_char findall rules _ diffOf h2]
    exact ⟨rfl, rfl, fun _ => rfl⟩

/-- Witness for C6: dropping a `.github/` workflow file from a concrete
run leaves items and overall severity unchanged. -/
theorem C6_github_excluded_witness :
    (analyze findallAll [anyPathRule] (["app.py"] ++ ".github/workflows/ci.yml" :: [])
        (fun _ => "")).items
      = (analyze findallAll [anyPathRule] (["app.py"] ++ []) (fun _ => "")).items
    ∧ (analyze findallAll [anyPathRule] (["app.py"] ++ ".github/workflows/ci.yml" :: [])
        (fun _ => "")).overall_impact
      = (analyze findallAll [anyPathRule] (["app.py"] ++ []) (fun _ => "")).overall_impact := by
  have h := C6_github_excluded findallAll [anyPathRule] ["app.py"] []
    ".github/workflows/ci.yml" (fun _ => "") (by decide)
  exact ⟨h.1, h.2.1⟩

/-! ## The threshold gate -/

/-- C7: the process exits with code 1 precisely when a `--fail-on`
threshold is supplied and the overall severity is greater than or equal
to it under the fixed rank (`>=` as derived from the order-list `__lt__`);
in every other case it exits with code 0. -/
theorem C7_exit_code :
    ∀ (fail_on : Option ImpactLevel) (overall : ImpactLevel),
    (mainExitCode fail_on overall = 1
       ↔ ∃ t, fail_on = Option.some t ∧ ImpactLevel.ge overall t = true)
    ∧ (mainExitCode fail_on overall = 0
       ↔ ¬ ∃ t, fail_on = Option.some t ∧ ImpactLevel.ge overall t = true)
    ∧ (∀ a b : ImpactLevel, ImpactLevel.ge a b = true ↔ b.idx ≤ a.idx) := by
  intro fail_on overall
  have hge : ∀ a b : ImpactLevel, ImpactLevel.ge a b = true ↔ b.idx ≤ a.idx := by
    intro a b
    cases a <;> cases b <;> decide
  refine ⟨?_, ?_, hge⟩
  · cases fail_on with
    | none => simp [mainExitCode]
    | some t =>
      cases hg : ImpactLevel.ge overall t <;> simp [mainExitCode, hg]
  · cases fail_on with
    | none => simp [mainExitCode]
    | some t =>
      cases hg : ImpactLevel.ge overall t <;> simp [mainExitCode, hg]

/-! ## Summary finalization -/

/-- C8 (counterexample): the claim says the report is finalized — the
counts tallied — after `analyze` returns, *including* the run with an
empty changed-file list.  On the empty list the source returns early
without calling `generate_summary`: the summary stays the empty dict,
which is not the tally (the tally of zero evidences is the five-entry
zero map). -/
theorem C8_counterexample :
    (analyze findallAll [] [] (fun _ => "")).summary = []
    ∧ ([] : List (String × Nat))
        ≠ [("total_items", 0), ("critical", 0), ("high", 0), ("medium", 0), ("low", 0)] := by
  exact ⟨rfl, by decide⟩

/-- C8 (amended): after `analyze` returns on a nonempty changed-file
list, the report is finalized: the summary tallies the evidences per
severity level plus `total_items`; on an empty changed-file list
`analyze` returns early, with overall severity NONE, no evidences, and
the summary left uncomputed (the empty dict). -/
theorem C8_summary_finalized :
    ∀ (findall : String → List Char → List String) (rules : List RuleConfig)
      (changed : List String) (diffOf : String → String),
    (changed ≠ [] →
      (analyze findall rules changed diffOf).summary
        = [("total_items", (analyze findall rules changed diffOf).items.length),
           ("critical", countLevel (analyze findall rules changed diffOf).items ImpactLevel.critical),
           ("high", countLevel (analyze findall rules changed diffOf).items ImpactLevel.high),
           ("medium", countLevel (analyze findall rules changed diffOf).items ImpactLevel.medium),
           ("low", countLevel (analyze findall rules changed diffOf).items ImpactLevel.low)])
    ∧ (changed = [] →
        (analyze findall rules changed diffOf).summary = []
        ∧ (analyze findall rules changed diffOf).items = []
        ∧ (analyze findall rules changed diffOf).overall_impact = ImpactLevel.none) := by
  intro findall rules changed diffOf
  constructor
  · intro h
    rw [analyze_char findall rules changed diffOf h]
    rfl
  · intro h
    subst h
    exact ⟨rfl, rfl, rfl⟩

/-- Witness for C8 on a concrete one-file run. -/
theorem C8_summary_finalized_witness :
    (analyze findallAll [] ["app.py"] (fun _ => "")).summary
      = [("total_items", (analyze findallAll [] ["app.py"] (fun _ => "")).items.length),
         ("critical", countLevel (analyze findallAll [] ["app.py"] (fun _ => "")).items ImpactLevel.critical),
         ("high", countLevel (analyze findallAll [] ["app.py"] (fun _ => "")).items ImpactLevel.high),
         ("medium", countLevel (analyze findallAll [] ["app.py"] (fun _ => "")).items ImpactLevel.medium),
         ("low", countLevel (analyze findallAll [] ["app.py"] (fun _ => "")).items ImpactLevel.low)] := by
  exact (C8_summary_finalized findallAll [] ["app.py"] (fun _ => "")).1 (by simp)

/-! ## The Slack notification boundary -/

/-- C9: the notification sender skips (exits successfully without
contacting the target URL, for every delivery function) exactly when no
truthy target URL is configured or the stripped PR status is a skip
status (draft); and when a send is reached, a delivery failure
propagates as an error rather than being swallowed. -/
theorem C9_slack_skip :
    ∀ (env : SlackEnv) (deliver : String → JVal → Except String Unit),
    ((slackMain env deliver = Except.ok SlackOutcome.skipped) ↔ slackSkipCond env = true)
    ∧ (∀ e : String,
        slackSkipCond env = false →
        env.github_repository.isSome = true →
        env.github_server_url.isSome = true →
        env.pr_number.isSome = true →
        env.overall_impact.isSome = true →
        slackMain env (fun _ _ => Except.error e) = Except.error e) := by
  intro env deliver
  obtain ⟨u, st, rp, sv, n, im⟩ := env
  constructor
  · cases u with
    | none => simp [slackMain, slackSkipCond, urlTruthy]
    | some url =>
      by_cases hu : url = ""
      · subst hu
        simp [slackMain, slackSkipCond, urlTruthy]
      · have hu2 : (url == "") = false := by
          simp [hu]
        cases hdr : SKIP_PR_STATUSES.contains (pyStrip (Option.getD st ""))
        · have hdr2 : pyStrip (Option.getD st "") ∉ SKIP_PR_STATUSES := by
            simpa using hdr
          have hskipc : slackSkipCond
              { sc_assessor_slack_url := Option.some url, pr_status := st,
                github_repository := rp, github_server_url := sv,
                pr_number := n, overall_impact := im } = false := by
            simp [slackSkipCond, urlTruthy, hu2, hdr2]
          rw [hskipc]
          cases rp with
          | none => simp [slackMain, requireEnv, hu2, hdr2]
          | some repo =>
            cases sv with
            | none => simp [slackMain, requireEnv, hu2, hdr2]
            | some server =>
              cases n with
              | none => simp [slackMain, requireEnv, hu2, hdr2]
              | some num =>
                cases im with
                | none => simp [slackMain, requireEnv, hu2, hdr2]
                | some impact =>
                  cases hd : deliver url (build_payload repo num
                      (server ++ "/" ++ repo ++ "/pull/" ++ num) impact) with
                  | error e => simp [slackMain, requireEnv, hu2, hdr2, hd]
                  | ok x => simp [slackMain, requireEnv, hu2, hdr2, hd]
        · have hdr2 : pyStrip (Option.getD st "") ∈ SKIP_PR_STATUSES := by
            simpa using hdr
          have hl : slackMain
              { sc_assessor_slack_url := Option.some url, pr_status := st,
                github_repository := rp, github_server_url := sv,
                pr_number := n, overall_impact := im } deliver
              = Except.ok SlackOutcome.skipped := by
            simp [slackMain, hu2, hdr2]
          rw [hl]
          simp [slackSkipCond, urlTruthy, hu2, hdr2]
  · intro e hskip h1 h2 h3 h4
    cases u with
    | none => simp [slackSkipCond, urlTruthy] at hskip
    | some url =>
      cases rp with
      | none => simp at h1
      | some repo =>
        cases sv with
        | none => simp at h2
        | some server =>
          cases n with
          | none => simp at h3
          | some num =>
            cases im with
            | none => simp at h4
            | some impact =>
              simp only [slackSkipCond, urlTruthy, Bool.or_eq_false_iff,
                Bool.not_eq_false'] at hskip
              obtain ⟨hu2, hdr⟩ := hskip
              have hu3 : (url == "") = false := by
                simp only [Bool.not_eq_true'] at hu2
                exact hu2
              have hdr2 : pyStrip (Option.getD st "") ∉ SKIP_PR_STATUSES := by
                simpa using hdr
              simp [slackMain, requireEnv, hu3, hdr2]

/-- Witness for C9: with a full environment and a failing delivery the
error propagates. -/
theorem C9_slack_skip_witness :
    slackMain slackEnvFull (fun _ _ => Except.error "delivery failed")
      = Except.error "delivery failed" := by
  exact (C9_slack_skip slackEnvFull (fun _ _ => Except.error "delivery failed")).2
    "delivery failed" (by decide) rfl rfl rfl rfl

/-! ## NONE-severity evidences in the summary -/

theorem max_none_right (a : ImpactLevel) : ImpactLevel.max a ImpactLevel.none = a := by
  cases a <;> rfl

theorem countLevel_cons (i : ImpactItem) (l : List ImpactItem) (lv : ImpactLevel) :
    countLevel (i :: l) lv = (if i.impact_level == lv then 1 else 0) + countLevel l lv := by
  unfold countLevel
  rw [List.filter_cons]
  cases h : (i.impact_level == lv) <;> simp [h, Nat.add_comm]

theorem bucket_sum : ∀ items : List ImpactItem,
    countLevel items ImpactLevel.critical + countLevel items ImpactLevel.high
      + countLevel items ImpactLevel.medium + countLevel items ImpactLevel.low
      = (items.filter (fun i => !(i.impact_level == ImpactLevel.none))).length := by
  intro items
  induction items with
  | nil => rfl
  | cons i l ih =>
    rw [countLevel_cons, countLevel_cons, countLevel_cons, countLevel_cons, List.filter_cons]
    cases h : i.impact_level <;> simp [h] <;> omega

theorem countLevel_append_none (l : List ImpactItem) (item : ImpactItem)
    (h : item.impact_level = ImpactLevel.none) (lv : ImpactLevel)
    (hlv : ¬ lv = ImpactLevel.none) :
    countLevel (l ++ [item]) lv = countLevel l lv := by
  unfold countLevel
  rw [List.filter_append]
  have : (ImpactItem.impact_level item == lv) = false := by
    rw [h]
    cases lv <;> simp_all
  simp [this]

/-- C10: `total_items` counts every evidence while the four per-severity
buckets count only CRITICAL/HIGH/MEDIUM/LOW evidences; a rule may be
configured with severity `"none"`, and when it fires its evidence is
appended (counted in `total_items`, raising nothing) but lands in no
bucket, so the bucket sum can fall short of `total_items`. -/
theorem C10_none_severity :
    ∀ (r : ImpactReport) (item : ImpactItem) (findall : String → List Char → List String)
      (rule : RuleConfig) (file_path diff_content : String),
    ((r.generate_summary).summary
       = [("total_items", r.items.length),
          ("critical", countLevel r.items ImpactLevel.critical),
          ("high", countLevel r.items ImpactLevel.high),
          ("medium", countLevel r.items ImpactLevel.medium),
          ("low", countLevel r.items ImpactLevel.low)])
    ∧ (countLevel r.items ImpactLevel.critical + countLevel r.items ImpactLevel.high
        + countLevel r.items ImpactLevel.medium + countLevel r.items ImpactLevel.low
        = (r.items.filter (fun i => !(i.impact_level == ImpactLevel.none))).length)
    ∧ (item.impact_level = ImpactLevel.none →
        (r.add_item item).items = r.items ++ [item]
        ∧ (r.add_item item).overall_impact = r.overall_impact
        ∧ (r.items ++ [item]).length = r.items.length + 1
        ∧ countLevel (r.items ++ [item]) ImpactLevel.critical = countLevel r.items ImpactLevel.critical
        ∧ countLevel (r.items ++ [item]) ImpactLevel.high = countLevel r.items ImpactLevel.high
        ∧ countLevel (r.items ++ [item]) ImpactLevel.medium = countLevel r.items ImpactLevel.medium
        ∧ countLevel (r.items ++ [item]) ImpactLevel.low = countLevel r.items ImpactLevel.low)
    ∧ (rule.impact_level = ImpactLevel.none → rule.paths = [] → rule.content_patterns = [] →
        (analyze_file findall [rule] file_path diff_content r).items
          = r.items ++ [mkItem findall rule file_path diff_content]
        ∧ (analyze_file findall [rule] file_path diff_content r).overall_impact
          = r.overall_impact) := by
  intro r item findall rule file_path diff_content
  refine ⟨rfl, bucket_sum r.items, ?_, ?_⟩
  · intro h
    refine ⟨rfl, ?_, by simp, ?_, ?_, ?_, ?_⟩
    · rw [add_item_overall, h, max_none_right]
    · exact countLevel_append_none r.items item h ImpactLevel.critical (by simp)
    · exact countLevel_append_none r.items item h ImpactLevel.high (by simp)
    · exact countLevel_append_none r.items item h ImpactLevel.medium (by simp)
    · exact countLevel_append_none r.items item h ImpactLevel.low (by simp)
  · intro hlv hp hc
    have hfire : ruleFireCond findall rule file_path diff_content = true := by
      unfold ruleFireCond
      rw [hp, hc]
      simp
    rw [analyze_file_single, ruleStep_char, hfire]
    refine ⟨rfl, ?_⟩
    have hmk : (mkItem findall rule file_path diff_content).impact_level
        = ImpactLevel.none := by
      simp [mkItem, hlv]
    rw [if_pos rfl, add_item_overall, hmk, max_none_right]

/-- Witness for C10 at a concrete `"none"`-severity rule and item. -/
theorem C10_none_severity_witness :
    (initialReport.add_item noneItem).items = initialReport.items ++ [noneItem]
    ∧ (initialReport.add_item noneItem).overall_impact = initialReport.overall_impact
    ∧ (analyze_file findallAll [noneRule] "app.py" "" initialReport).overall_impact
      = initialReport.overall_impact := by
  have h := C10_none_severity initialReport noneItem findallAll noneRule "app.py" ""
  exact ⟨(h.2.2.1 rfl).1, (h.2.2.1 rfl).2.1, (h.2.2.2 rfl rfl rfl).2⟩

end SC
